import Mathlib

/-!
# Verification of `src/fetch_wb_acceptance_coefficients.py`

A shallow embedding of the WB acceptance-coefficients synchronization script
and proofs about it.  Python scalar values are embedded as `PyVal`; Python
`float` is modelled exactly by `ℚ` (the script only moves parsed numbers
around, it never performs float arithmetic, so exact rationals are a faithful
model of the values any parse produces).  Stateful behaviour of `main` is
modelled by the pure function `runMain` over an explicit `World` describing
the process environment, the HTTP response and the database call outcomes;
`runMain` returns the trace of externally visible events together with the
process exit code.
-/

namespace WBSync

/-- Python scalar values as they occur in the WB API JSON records consumed by
the script: `None`, booleans, integers, floats (modelled exactly as rationals)
and strings. -/
inductive PyVal where
  | none
  | bool (b : Bool)
  | int (n : Int)
  | float (q : ℚ)
  | str (s : String)
deriving Repr, DecidableEq

/-- Python truthiness `bool(v)` for the scalar values above: `None`, `False`,
`0`, `0.0` and `""` are falsy, everything else is truthy. -/
def PyVal.truthy : PyVal → Bool
  | .none => false
  | .bool b => b
  | .int n => n != 0
  | .float q => q != 0
  | .str s => s != ""

/-- The whitespace characters removed by Python `str.strip()` (the ASCII
whitespace set; the script only ever strips configuration values and numeric
strings, for which this set is the relevant one). -/
def isPySpace (c : Char) : Bool :=
  c = ' ' || c = '\t' || c = '\n' || c = '\r' || c = '\x0b' || c = '\x0c'

/-- Python `str.strip()` on the underlying character list: drop leading and
trailing whitespace. -/
def pyStripL (l : List Char) : List Char :=
  ((l.dropWhile isPySpace).reverse.dropWhile isPySpace).reverse

/-- Python `str.strip()`. -/
def pyStrip (s : String) : String := ⟨pyStripL s.data⟩

/-- Python `str.replace(pat, rep)` for a single-character pattern `pat`
(the only shape the script uses: `replace(",", ".")` and
`replace("Z", "+00:00")`): every occurrence of `pat` is replaced by `rep`. -/
def pyReplace1L (pat : Char) (rep : List Char) : List Char → List Char
  | [] => []
  | c :: rest => (if c = pat then rep else [c]) ++ pyReplace1L pat rep rest

/-- Python `str.replace` for a single-character pattern, on strings. -/
def pyReplace1 (pat : Char) (rep : String) (s : String) : String :=
  ⟨pyReplace1L pat rep.data s.data⟩

/-- The numeric value of a decimal digit character. -/
def digitVal (c : Char) : Nat := c.toNat - 48

/-- The natural number denoted by a list of decimal digit characters
(most significant first). -/
def digitsToNat (ds : List Char) : Nat := ds.foldl (fun a c => 10 * a + digitVal c) 0

/-- Model of Python `float(s)` on the character list of `s`, for finite
decimal literals: optional sign, then digits with an optional single `.`
(at least one digit on one side), then an optional exponent `e`/`E` with
optional sign and digits.  Python's `float` additionally accepts surrounding
whitespace (handled in `pyFloat`), `inf`/`nan` spellings and `_` digit
separators; those exotic spellings are outside the scope of this model and
parse to `Option.none` here. -/
def pyFloatCore (l : List Char) : Option ℚ :=
  let sgn : ℚ × List Char :=
    match l with
    | '+' :: r => (1, r)
    | '-' :: r => (-1, r)
    | r => (1, r)
  let ip : List Char × List Char := sgn.2.span Char.isDigit
  let fp : List Char × List Char :=
    match ip.2 with
    | '.' :: r => r.span Char.isDigit
    | r => ([], r)
  if ip.1.isEmpty && fp.1.isEmpty then Option.none
  else
    let mant : ℚ := (digitsToNat ip.1 : ℚ) + (digitsToNat fp.1 : ℚ) / (10 : ℚ) ^ fp.1.length
    match fp.2 with
    | [] => some (sgn.1 * mant)
    | 'e' :: r | 'E' :: r =>
      let esgn : Int × List Char :=
        match r with
        | '+' :: r2 => (1, r2)
        | '-' :: r2 => (-1, r2)
        | r2 => (1, r2)
      let ed : List Char × List Char := esgn.2.span Char.isDigit
      if ed.1.isEmpty || !ed.2.isEmpty then Option.none
      else some (sgn.1 * mant * (10 : ℚ) ^ (esgn.1 * (digitsToNat ed.1 : Int)))
    | _ => Option.none

/-- Model of Python `float(s)` (which ignores surrounding whitespace). -/
def pyFloat (s : String) : Option ℚ := pyFloatCore (pyStripL s.data)

/-- `to_decimal` (src/fetch_wb_acceptance_coefficients.py lines 62-75):
`None → None`; `int`/`float` (and `bool`, a subclass of `int` in Python)
convert directly; otherwise `str(value).strip()`, empty string `→ None`,
else `float(s.replace(",", "."))` with `ValueError → None`. -/
def to_decimal : PyVal → Option ℚ
  | .none => Option.none
  | .bool b => some (if b then 1 else 0)
  | .int n => some (n : ℚ)
  | .float q => some q
  | .str v =>
    let s := pyStrip v
    if s = "" then Option.none
    else pyFloat (pyReplace1 ',' "." s)

/-- The character map underlying `replace(",", ".")`: a single-character
pattern replaced by a single character acts pointwise. -/
def commaDot (c : Char) : Char := if c = ',' then '.' else c

/-- The numeric value of a digit character, `Option.none` on non-digits. -/
def readDigit (c : Char) : Option Nat :=
  if c.isDigit then some (c.toNat - 48) else Option.none

/-- Read exactly two decimal digits. -/
def read2 : List Char → Option (Nat × List Char)
  | c1 :: c2 :: rest =>
    match readDigit c1, readDigit c2 with
    | some d1, some d2 => some (10 * d1 + d2, rest)
    | _, _ => Option.none
  | _ => Option.none

/-- Read exactly four decimal digits. -/
def read4 : List Char → Option (Nat × List Char)
  | c1 :: c2 :: c3 :: c4 :: rest =>
    match readDigit c1, readDigit c2, readDigit c3, readDigit c4 with
    | some a, some b, some c, some d => some (1000 * a + 100 * b + 10 * c + d, rest)
    | _, _, _, _ => Option.none
  | _ => Option.none

/-- Consume one expected character. -/
def expect (c : Char) : List Char → Option (List Char)
  | c2 :: rest => if c2 = c then some rest else Option.none
  | [] => Option.none

/-- The Gregorian leap-year rule used by Python's `datetime`. -/
def isLeap (y : Nat) : Bool := (y % 4 = 0 && y % 100 != 0) || y % 400 = 0

/-- Days in each month, as validated by Python's `datetime` constructor. -/
def daysInMonth (y m : Nat) : Nat :=
  if m = 2 then (if isLeap y then 29 else 28)
  else if m = 4 || m = 6 || m = 9 || m = 11 then 30 else 31

/-- Time-zone suffix accepted after the seconds field: either nothing or
`±HH:MM` (the shape the script produces with `replace("Z", "+00:00")`). -/
def parseTz (l : List Char) : Bool :=
  match l with
  | [] => true
  | c :: rest =>
    if c = '+' || c = '-' then
      match read2 rest with
      | some th =>
        match expect ':' th.2 with
        | some r2 =>
          match read2 r2 with
          | some tm => tm.2.isEmpty && decide (th.1 ≤ 23) && decide (tm.1 ≤ 59)
          | Option.none => false
        | Option.none => false
      | Option.none => false
    else false

/-- Model of `datetime.fromisoformat(s).date()` as the script uses it
(CPython's pre-3.11 `fromisoformat` grammar): a `YYYY-MM-DD` calendar date,
optionally followed by a one-character separator and a `hh:mm:ss` time with
an optional `±HH:MM` offset (the shape `replace("Z", "+00:00")` produces).
Returns the validated `(year, month, day)` triple of the `.date()` value and
`Option.none` on the `ValueError` cases.  Fractional seconds and the
abbreviated time forms are outside the scope of this model. -/
def pyFromIsoformatDate (l : List Char) : Option (Nat × Nat × Nat) :=
  (read4 l).bind fun yr =>
  (expect '-' yr.2).bind fun r1 =>
  (read2 r1).bind fun mr =>
  (expect '-' mr.2).bind fun r3 =>
  (read2 r3).bind fun dr =>
  if 1 ≤ yr.1 ∧ 1 ≤ mr.1 ∧ mr.1 ≤ 12 ∧ 1 ≤ dr.1 ∧ dr.1 ≤ daysInMonth yr.1 mr.1 then
    match dr.2 with
    | [] => some (yr.1, mr.1, dr.1)
    | _sep :: tr =>
      (read2 tr).bind fun hr =>
      (expect ':' hr.2).bind fun t2 =>
      (read2 t2).bind fun mir =>
      (expect ':' mir.2).bind fun t4 =>
      (read2 t4).bind fun sr =>
      if hr.1 ≤ 23 ∧ mir.1 ≤ 59 ∧ sr.1 ≤ 59 ∧ parseTz sr.2 then some (yr.1, mr.1, dr.1)
      else Option.none
  else Option.none

/-- The decimal digit character for `n < 10`. -/
def digitChar (n : Nat) : Char := Char.ofNat (48 + n)

/-- A natural number printed as exactly two digits (`%02d`). -/
def pad2 (n : Nat) : List Char := [digitChar (n / 10), digitChar (n % 10)]

/-- A natural number printed as exactly four digits (`%04d`). -/
def pad4 (n : Nat) : List Char :=
  [digitChar (n / 1000), digitChar (n / 100 % 10), digitChar (n / 10 % 10),
   digitChar (n % 10)]

/-- Python `date.isoformat()`: the zero-padded `YYYY-MM-DD` rendering. -/
def formatDate (y m d : Nat) : String :=
  ⟨pad4 y ++ ('-' :: (pad2 m ++ ('-' :: pad2 d)))⟩

/-- A WB timestamp of the form `YYYY-MM-DDThh:mm:ssZ` with the given
zero-padded components (grouped so that each field heads its own suffix). -/
def wbTimestamp (y m d hh mi ss : Nat) : String :=
  ⟨pad4 y ++ ('-' :: (pad2 m ++ ('-' :: (pad2 d ++ ('T' :: (pad2 hh
    ++ (':' :: (pad2 mi ++ (':' :: (pad2 ss ++ ['Z']))))))))))⟩

/-- A raw WB API record as the script reads it with `row.get(...)`:
absent keys and JSON `null` both surface as `Option.none` / `PyVal.none`,
which the script treats identically (`get` defaults, truthiness, `to_decimal`).
`date` and `warehouseName` are strings when present, per the API contract the
script relies on (it calls `str.replace` on the date and uses string
truthiness for the name). -/
structure RawRow where
  date : Option String := Option.none
  warehouseID : PyVal := PyVal.none
  warehouseName : Option String := Option.none
  boxTypeID : PyVal := PyVal.none
  coefficient : PyVal := PyVal.none
  allowUnload : PyVal := PyVal.none
  storageCoef : PyVal := PyVal.none
  deliveryCoef : PyVal := PyVal.none
  deliveryBaseLiter : PyVal := PyVal.none
  deliveryAdditionalLiter : PyVal := PyVal.none
  storageBaseLiter : PyVal := PyVal.none
  storageAdditionalLiter : PyVal := PyVal.none
  isSortingCenter : PyVal := PyVal.none
deriving Repr, DecidableEq

/-- The destination-table row shape built by `normalize_rows`
(lines 98-112).  `warehouse_name` is a `String` (never null): the code forces
this with `row.get("warehouseName") or ""`.  The boolean flags are `Bool`
(never null): the code forces this with `bool(row.get(..., False))`. -/
structure NormalizedRow where
  coeff_date : String
  warehouse_id : PyVal
  warehouse_name : String
  box_type_id : PyVal
  coefficient : Option ℚ
  allow_unload : Bool
  storage_coef : Option ℚ
  delivery_coef : Option ℚ
  delivery_base_liter : Option ℚ
  delivery_additional_liter : Option ℚ
  storage_base_liter : Option ℚ
  storage_additional_liter : Option ℚ
  is_sorting_center : Bool
deriving Repr, DecidableEq

/-- One iteration of the loop in `normalize_rows` (lines 84-114): rows with a
missing, empty or unparseable `date` are skipped (`Option.none`); otherwise
the normalized item is built. -/
def normalizeRow (row : RawRow) : Option NormalizedRow :=
  match row.date with
  | Option.none => Option.none
  | some date_str =>
    if date_str = "" then Option.none
    else
      match pyFromIsoformatDate (pyReplace1 'Z' "+00:00" date_str).data with
      | Option.none => Option.none
      | some ymd =>
        some {
          coeff_date := formatDate ymd.1 ymd.2.1 ymd.2.2,
          warehouse_id := row.warehouseID,
          warehouse_name :=
            (match row.warehouseName with
             | some s => if s = "" then "" else s
             | Option.none => ""),
          box_type_id := row.boxTypeID,
          coefficient := to_decimal row.coefficient,
          allow_unload := row.allowUnload.truthy,
          storage_coef := to_decimal row.storageCoef,
          delivery_coef := to_decimal row.deliveryCoef,
          delivery_base_liter := to_decimal row.deliveryBaseLiter,
          delivery_additional_liter := to_decimal row.deliveryAdditionalLiter,
          storage_base_liter := to_decimal row.storageBaseLiter,
          storage_additional_liter := to_decimal row.storageAdditionalLiter,
          is_sorting_center := row.isSortingCenter.truthy }

/-- `normalize_rows` (lines 78-117): the per-row loop appends at most one
normalized item per raw record, i.e. a `filterMap`. -/
def normalize_rows (raw_rows : List RawRow) : List NormalizedRow :=
  raw_rows.filterMap normalizeRow

/-- `chunked` (lines 120-122):
`[iterable[i : i + size] for i in range(0, len(iterable), size)]`.
`range(0, n, size)` has `⌈n / size⌉` elements for `size ≥ 1`, and the slice
`iterable[i : i + size]` is `(drop i).take size`. -/
def chunked (iterable : List α) (size : Nat) : List (List α) :=
  (List.range' 0 ((iterable.length + size - 1) / size) size).map
    (fun i => (iterable.drop i).take size)

/-- `get_env` (lines 19-24).  The process environment is a partial map from
variable names to values; `os.getenv(name, default)` falls back to `default`
only when `name` is unset.  `Except.error msg` models `log(msg)` followed by
`sys.exit(1)`. -/
def get_env (env : String → Option String) (name : String) (required : Bool)
    (default : Option String) : Except String (Option String) :=
  let value : Option String :=
    match env name with
    | some v => some v
    | Option.none => default
  if required && (match value with
                  | Option.none => true
                  | some v => pyStrip v == "") then
    Except.error ("ERROR: " ++ name ++ " is empty (set it in GitHub Secrets or env)")
  else Except.ok value

/-- The WB HTTP response body as `main`'s fetch stage sees it after
`resp.json()`: undecodable, a JSON document whose top level is not a list, or
a JSON array of raw records (the shape `normalize_rows` consumes). -/
inductive RespBody where
  | notJson (snippet : String)
  | jsonNonList (descr : String)
  | jsonList (rows : List RawRow)
deriving Repr

/-- The externally visible events of one run: `log` lines on stdout, the
delete statement (with its schema, table and `gte` predicate column/bound)
and each insert statement (with its row batch). -/
inductive Event where
  | log (msg : String)
  | deleteCall (schema table col lowerBound : String)
  | insertCall (schema table : String) (batch : List NormalizedRow)
deriving Repr, DecidableEq

/-- Everything external that one run of the script consumes: the process
environment, the WB HTTP response (status, text, parsed body) and the
outcome of the delete call and of each (1-indexed) insert call.  An
`Except.error e` outcome models the corresponding client call raising an
exception rendered as `e`. -/
structure World where
  env : String → Option String
  status_code : Nat
  respText : String
  respBody : RespBody
  deleteResult : Except String Unit
  insertResult : Nat → Except String Unit

/-- `fetch_acceptance_coefficients` (lines 27-59), given the response parts of
the single `requests.get` call: logs the request, fails (exit 1) on non-200
status, undecodable JSON, or a non-list top level, and otherwise returns the
raw record list.  The header credential, query parameters and the 60-second
timeout of the request itself produce no observable event beyond the log
line and are not modelled further. -/
def fetch_acceptance_coefficients (status_code : Nat) (respText : String)
    (respBody : RespBody) (warehouse_ids : Option String) :
    List Event × Except Nat (List RawRow) :=
  let shown : String :=
    match warehouse_ids with
    | some s => if s = "" then "ALL" else s
    | Option.none => "ALL"
  let reqLog := Event.log ("Requesting WB acceptance coefficients (warehouseIDs="
    ++ shown ++ ")...")
  if status_code ≠ 200 then
    ([reqLog, .log ("ERROR: WB API " ++ toString status_code ++ ": " ++ respText)],
     .error 1)
  else
    match respBody with
    | .notJson snippet =>
      ([reqLog, .log ("ERROR: cannot decode WB response as JSON: " ++ snippet)],
       .error 1)
    | .jsonNonList descr =>
      ([reqLog, .log ("ERROR: unexpected WB format, expected list, got: " ++ descr)],
       .error 1)
    | .jsonList rows =>
      ([reqLog, .log ("Fetched " ++ toString rows.length ++ " raw rows from WB")],
       .ok rows)

/-- The insert loop of `main` (lines 166-173): one insert call per chunk,
enumerated from 1; the first failing batch logs the error and exits 1,
issuing no further inserts. -/
def insertBatches (insertResult : Nat → Except String Unit) (schema table : String) :
    Nat → List (List NormalizedRow) → List Event × Except Nat Unit
  | _, [] => ([], .ok ())
  | i, batch :: rest =>
    let ev0 := Event.log ("Inserting batch " ++ toString i ++ " with "
      ++ toString batch.length ++ " rows...")
    let evIns := Event.insertCall schema table batch
    match insertResult i with
    | .error e =>
      ([ev0, evIns, .log ("ERROR while inserting batch " ++ toString i ++ ": " ++ e)],
       .error 1)
    | .ok _ =>
      let rest2 := insertBatches insertResult schema table (i + 1) rest
      (ev0 :: evIns :: rest2.1, rest2.2)

/-- Steps 4-5 of `main` (lines 149-175): the delete of the previous table
contents (a `gte` predicate on `coeff_date`, the "soft truncate") followed,
only if the delete succeeded, by the chunked insert loop with
`BATCH_SIZE = 1000` and the final `Done` log.  The caller has already checked
that `rows` is non-empty. -/
def syncStage (w : World) (schema table : String) (rows : List NormalizedRow) :
    List Event × Nat :=
  let delLog := Event.log ("Deleting previous rows from " ++ schema ++ "." ++ table
    ++ " ...")
  let delEv := Event.deleteCall schema table "coeff_date" "1900-01-01"
  match w.deleteResult with
  | .error e =>
    ([delLog, delEv, .log ("ERROR while deleting old rows: " ++ e)], 1)
  | .ok _ =>
  let BATCH_SIZE := 1000
  let inserted := insertBatches w.insertResult schema table 1 (chunked rows BATCH_SIZE)
  match inserted.2 with
  | .error code =>
    (delLog :: delEv :: Event.log "Previous rows deleted." :: inserted.1, code)
  | .ok _ =>
    (delLog :: delEv :: Event.log "Previous rows deleted." :: inserted.1
      ++ [.log ("Done. Inserted total " ++ toString rows.length ++ " rows into "
          ++ schema ++ "." ++ table ++ ".")], 0)

/-- Steps 2-5 of `main` (lines 136-175), after the fetch has returned
`raw_rows`: the two "nothing to sync" short-circuits (`return`, exit 0) and
otherwise the delete/insert stage. -/
def pipelineAfterFetch (w : World) (schema table : String) (raw_rows : List RawRow) :
    List Event × Nat :=
  if raw_rows.isEmpty then ([.log "No rows from WB, nothing to sync."], 0)
  else
    let rows := normalize_rows raw_rows
    let normEv := Event.log ("Normalized rows: " ++ toString rows.length)
    if rows.isEmpty then ([normEv, .log "No normalized rows, nothing to insert."], 0)
    else
      let s := syncStage w schema table rows
      (normEv :: s.1, s.2)

/-- `main` (lines 125-175) as a pure function of the external world: returns
the event trace and the process exit code (`sys.exit(1)` → 1, normal return
→ 0).  The required `get_env` calls never return `Except.ok Option.none`, so
the `getD ""` extraction of the optional-with-default schema and table names
is exact.  `create_client` performs no observable event. -/
def runMain (w : World) : List Event × Nat :=
  match get_env w.env "WB_SUPPLIES_TOKEN" true Option.none with
  | .error msg => ([.log msg], 1)
  | .ok _wb_token =>
  match get_env w.env "SUPABASE_URL" true Option.none with
  | .error msg => ([.log msg], 1)
  | .ok _supabase_url =>
  match get_env w.env "SUPABASE_SERVICE_KEY" true Option.none with
  | .error msg => ([.log msg], 1)
  | .ok _supabase_key =>
  match get_env w.env "SUPABASE_SCHEMA" false (some "public") with
  | .error msg => ([.log msg], 1)
  | .ok schemaOpt =>
  match get_env w.env "SUPABASE_TABLE" false (some "wb_acceptance_coefficients") with
  | .error msg => ([.log msg], 1)
  | .ok tableOpt =>
  match get_env w.env "WB_WAREHOUSE_IDS" false Option.none with
  | .error msg => ([.log msg], 1)
  | .ok warehouse_ids =>
  let schema := schemaOpt.getD ""
  let table := tableOpt.getD ""
  let fetched := fetch_acceptance_coefficients w.status_code w.respText w.respBody
    warehouse_ids
  match fetched.2 with
  | .error code => (fetched.1, code)
  | .ok raw_rows =>
    let p := pipelineAfterFetch w schema table raw_rows
    (fetched.1 ++ p.1, p.2)

/-- Whether an event is the delete statement. -/
def Event.isDelete : Event → Bool
  | .deleteCall _ _ _ _ => true
  | _ => false

/-- Whether an event is an insert statement. -/
def Event.isInsert : Event → Bool
  | .insertCall _ _ _ => true
  | _ => false

/-- The row batches carried by the insert calls of a trace, in order. -/
def insertedBatches (evs : List Event) : List (List NormalizedRow) :=
  evs.filterMap fun e =>
    match e with
    | .insertCall _ _ b => some b
    | _ => Option.none

/-- The three required configuration values are present and non-blank, i.e.
the configuration stage of `main` passes. -/
def requiredEnvOk (env : String → Option String) : Prop :=
  (∃ v, env "WB_SUPPLIES_TOKEN" = some v ∧ pyStrip v ≠ "") ∧
  (∃ v, env "SUPABASE_URL" = some v ∧ pyStrip v ≠ "") ∧
  (∃ v, env "SUPABASE_SERVICE_KEY" = some v ∧ pyStrip v ≠ "")

/-- The destination schema `main` ends up with: the environment value if the
variable is set, else the documented default `"public"`. -/
def schemaOf (env : String → Option String) : String :=
  match env "SUPABASE_SCHEMA" with
  | some v => v
  | Option.none => "public"

/-- The destination table `main` ends up with: the environment value if the
variable is set, else the documented default `"wb_acceptance_coefficients"`. -/
def tableOf (env : String → Option String) : String :=
  match env "SUPABASE_TABLE" with
  | some v => v
  | Option.none => "wb_acceptance_coefficients"

/-- A trace containing neither a delete call nor an insert call. -/
def cleanTrace (evs : List Event) : Prop :=
  ∀ e ∈ evs, e.isDelete = false ∧ e.isInsert = false

/-- The first `n` characters of a string (Python `s[:n]`). -/
def strTake (s : String) (n : Nat) : String := ⟨s.data.take n⟩

/-- A raw record whose date field is missing, empty, or unparseable: the
cases `normalize_rows` skips. -/
def badDate (r : RawRow) : Prop :=
  r.date = Option.none ∨ r.date = some "" ∨
  ∃ s, r.date = some s ∧
    pyFromIsoformatDate (pyReplace1 'Z' "+00:00" s).data = Option.none

/-- A configuration value that is absent from the environment or blank
(empty after stripping whitespace). -/
def envBlank (env : String → Option String) (name : String) : Prop :=
  env name = Option.none ∨ ∃ v, env name = some v ∧ pyStrip v = ""

/-- A concrete environment providing exactly the three required settings. -/
def testEnv : String → Option String := fun name =>
  if name = "WB_SUPPLIES_TOKEN" then some "token"
  else if name = "SUPABASE_URL" then some "http://sb"
  else if name = "SUPABASE_SERVICE_KEY" then some "key"
  else Option.none

/-- A concrete raw record with a well-formed date and every other field
absent. -/
def testRaw : RawRow := { date := some "2024-04-11T00:00:00Z" }

/-- The normalized row `normalize_rows` produces for `testRaw`. -/
def testNorm : NormalizedRow := {
  coeff_date := "2024-04-11",
  warehouse_id := PyVal.none,
  warehouse_name := "",
  box_type_id := PyVal.none,
  coefficient := Option.none,
  allow_unload := false,
  storage_coef := Option.none,
  delivery_coef := Option.none,
  delivery_base_liter := Option.none,
  delivery_additional_liter := Option.none,
  storage_base_liter := Option.none,
  storage_additional_liter := Option.none,
  is_sorting_center := false }

/-- A concrete world: valid configuration, successful response carrying one
record, succeeding database calls. -/
def testWorld : World := {
  env := testEnv,
  status_code := 200,
  respText := "",
  respBody := .jsonList [testRaw],
  deleteResult := .ok (),
  insertResult := fun _ => .ok () }

/-- A world whose environment sets a batch-size variable to `"2"` and whose
response carries three records. -/
def c5World : World := { testWorld with
  env := fun name => if name = "BATCH_SIZE" then some "2" else testEnv name,
  respBody := .jsonList [testRaw, testRaw, testRaw] }

theorem pyReplace1L_eq_map_commaDot (l : List Char) :
    pyReplace1L ',' ['.'] l = l.map commaDot := by
  induction l with
  | nil => rfl
  | cons c rest ih =>
    by_cases h : c = ',' <;> simp [pyReplace1L, commaDot, h, ih]

theorem isPySpace_commaDot (c : Char) : isPySpace (commaDot c) = isPySpace c := by
  by_cases h : c = ','
  · simp only [commaDot, h, if_pos]
    decide
  · simp [commaDot, h]

theorem commaDot_commaDot (c : Char) : commaDot (commaDot c) = commaDot c := by
  by_cases h : c = ',' <;> simp [commaDot, h]

theorem pyStripL_map_commaDot (l : List Char) :
    pyStripL (l.map commaDot) = (pyStripL l).map commaDot := by
  have hcomp : isPySpace ∘ commaDot = isPySpace := funext isPySpace_commaDot
  unfold pyStripL
  rw [List.dropWhile_map, hcomp, ← List.map_reverse, List.dropWhile_map, hcomp,
    List.map_reverse]

theorem map_commaDot_idem (l : List Char) :
    (l.map commaDot).map commaDot = l.map commaDot := by
  simp [List.map_map, Function.comp_def, commaDot_commaDot]

/-- Unfolding equation for `to_decimal` on a string argument. -/
theorem to_decimal_str (v : String) :
    to_decimal (.str v) =
      if pyStrip v = "" then Option.none
      else pyFloat (pyReplace1 ',' "." (pyStrip v)) := rfl

/-- Replacing every `','` by `'.'` in the raw string does not change the result
of `to_decimal`: the coercion itself performs exactly this replacement before
parsing, so both decimal-separator conventions coerce identically. -/
theorem to_decimal_replace_comma (s : String) :
    to_decimal (.str (pyReplace1 ',' "." s)) = to_decimal (.str s) := by
  have hdot : (("." : String)).data = ['.'] := rfl
  have hdata : (pyReplace1 ',' "." s).data = s.data.map commaDot := by
    simp [pyReplace1, hdot, pyReplace1L_eq_map_commaDot]
  have hstrip : pyStrip (pyReplace1 ',' "." s) = ⟨(pyStripL s.data).map commaDot⟩ := by
    simp [pyStrip, hdata, pyStripL_map_commaDot]
  have hcond : (pyStrip (pyReplace1 ',' "." s) = "") ↔ (pyStrip s = "") := by
    rw [hstrip, String.ext_iff, String.ext_iff]
    show (pyStripL s.data).map commaDot = ("" : String).data ↔ _
    have hempty : ("" : String).data = [] := rfl
    rw [hempty]
    simp [pyStrip]
  have hbranch : pyReplace1 ',' "." (pyStrip (pyReplace1 ',' "." s))
      = pyReplace1 ',' "." (pyStrip s) := by
    apply String.ext
    simp only [pyReplace1, hdot, hstrip, pyReplace1L_eq_map_commaDot, pyStrip]
    rw [pyStripL_map_commaDot, map_commaDot_idem]
  rw [to_decimal_str (pyReplace1 ',' "." s), to_decimal_str s]
  by_cases h : pyStrip s = ""
  · rw [if_pos h, if_pos (hcond.mpr h)]
  · rw [if_neg h, if_neg (fun hc => h (hcond.mp hc)), hbranch]

end WBSync

namespace WBSync

example : to_decimal (.str "12,5") = some (25/2 : ℚ) := by
  simp +decide [to_decimal, pyStrip, pyStripL, pyReplace1, pyReplace1L, pyFloat,
    pyFloatCore, digitsToNat, digitVal, isPySpace]
  norm_num

example : to_decimal (.str "12.5") = some (25/2 : ℚ) := by
  simp +decide [to_decimal, pyStrip, pyStripL, pyReplace1, pyReplace1L, pyFloat,
    pyFloatCore, digitsToNat, digitVal, isPySpace]
  norm_num

example : to_decimal (.str "") = Option.none := by
  simp +decide [to_decimal]

example : to_decimal (.str "abc") = Option.none := by
  simp +decide [to_decimal, pyStrip, pyStripL, pyReplace1, pyReplace1L, pyFloat,
    pyFloatCore, digitsToNat, digitVal, isPySpace]

example : to_decimal (.int 7) = some 7 := by
  simp [to_decimal]

/-- **C6.** For every raw numeric field value `v`, `to_decimal v` returns: the
direct float conversion when `v` is already numeric (`None → null`; `int` and
`float` convert directly); when `v` is a non-empty string, the value parsed
after replacing `','` with `'.'` — so the same digits with `','` or `'.'` as
decimal separator yield the same value; and null when `v` is null, an
empty/whitespace-only string, or an unparseable string — never an exception
(`to_decimal` is a total function) and never zero in those cases (it returns
`Option.none`, not `some 0`). -/
theorem c6_to_decimal_coercion :
    to_decimal PyVal.none = Option.none ∧
    (∀ n : Int, to_decimal (.int n) = some (n : ℚ)) ∧
    (∀ q : ℚ, to_decimal (.float q) = some q) ∧
    (∀ s : String, pyStrip s ≠ "" →
      to_decimal (.str s) = pyFloat (pyReplace1 ',' "." (pyStrip s))) ∧
    (∀ s : String, to_decimal (.str (pyReplace1 ',' "." s)) = to_decimal (.str s)) ∧
    (∀ s : String, pyStrip s = "" → to_decimal (.str s) = Option.none) ∧
    (∀ s : String, pyFloat (pyReplace1 ',' "." (pyStrip s)) = Option.none →
      to_decimal (.str s) = Option.none) := by
  refine ⟨rfl, fun n => rfl, fun q => rfl, fun s hs => ?_, to_decimal_replace_comma,
    fun s hs => ?_, fun s hs => ?_⟩
  · rw [to_decimal_str, if_neg hs]
  · rw [to_decimal_str, if_pos hs]
  · rw [to_decimal_str]
    by_cases h : pyStrip s = ""
    · rw [if_pos h]
    · rw [if_neg h, hs]

/-- Closed witness for C6: the hypotheses of the conditional conjuncts are
satisfiable on concrete inputs. -/
theorem c6_to_decimal_coercion_witness :
    to_decimal (.str "1,5") = pyFloat (pyReplace1 ',' "." (pyStrip "1,5")) ∧
    to_decimal (.str (pyReplace1 ',' "." "12,5")) = to_decimal (.str "12,5") ∧
    to_decimal (.str "   ") = Option.none ∧
    to_decimal (.str "abc") = Option.none :=
  ⟨c6_to_decimal_coercion.2.2.2.1 "1,5" (by decide),
   c6_to_decimal_coercion.2.2.2.2.1 "12,5",
   c6_to_decimal_coercion.2.2.2.2.2.1 "   " (by decide),
   c6_to_decimal_coercion.2.2.2.2.2.2 "abc" (by decide)⟩

theorem chunked_nil (size : Nat) : chunked ([] : List α) size = [] := by
  rcases size with _ | s
  · simp [chunked]
  · simp [chunked, Nat.div_eq_of_lt (Nat.lt_succ_self s)]

theorem ceil_div_succ (n size : Nat) (hs : 1 ≤ size) (hn : 1 ≤ n) :
    (n + size - 1) / size = (n - size + size - 1) / size + 1 := by
  rcases le_or_lt n size with h | h
  · have h1 : n - size = 0 := by omega
    have h2 : (n + size - 1) / size = 1 :=
      Nat.div_eq_of_lt_le (by omega) (by omega)
    have h3 : (size - 1) / size = 0 := Nat.div_eq_of_lt (by omega)
    rw [h1, h2, Nat.zero_add, h3]
  · have heq : n + size - 1 = (n - size + size - 1) + size := by omega
    rw [heq, Nat.add_div_right _ (by omega)]

/-- Unfolding `chunked` one slice at a time: for a positive size and a
non-empty list, the first chunk is `take size` and the rest are the chunks of
`drop size`. -/
theorem chunked_cons (l : List α) (size : Nat) (hs : 1 ≤ size) (hl : l ≠ []) :
    chunked l size = l.take size :: chunked (l.drop size) size := by
  have hn : 1 ≤ l.length := List.length_pos.mpr hl
  unfold chunked
  rw [List.length_drop, ceil_div_succ l.length size hs hn, List.range'_succ,
    List.map_cons, List.drop_zero, Nat.zero_add]
  congr 1
  have hshift := List.map_add_range' size 0 ((l.length - size + size - 1) / size) size
  rw [Nat.add_zero] at hshift
  rw [← hshift, List.map_map]
  apply List.map_congr_left
  intro i _
  simp [Function.comp, List.drop_drop]

theorem chunked_flatten_aux (size : Nat) (hs : 1 ≤ size) :
    ∀ (n : Nat) (l : List α), l.length ≤ n → (chunked l size).flatten = l := by
  intro n
  induction n with
  | zero =>
    intro l h
    have hl : l = [] := List.length_eq_zero.mp (by omega)
    simp [hl, chunked_nil]
  | succ n ih =>
    intro l h
    by_cases hl : l = []
    · simp [hl, chunked_nil]
    · have hn : 1 ≤ l.length := List.length_pos.mpr hl
      rw [chunked_cons l size hs hl, List.flatten_cons,
        ih (l.drop size) (by rw [List.length_drop]; omega),
        List.take_append_drop]

/-- Concatenating the chunks of `chunked` in order restores the original
list. -/
theorem chunked_flatten (l : List α) (size : Nat) (hs : 1 ≤ size) :
    (chunked l size).flatten = l :=
  chunked_flatten_aux size hs l.length l le_rfl

/-- `chunked` produces exactly `⌈length / size⌉` chunks. -/
theorem chunked_length (l : List α) (size : Nat) :
    (chunked l size).length = l.length ⌈/⌉ size := by
  simp [chunked, Nat.ceilDiv_eq_add_pred_div]

/-- Every chunk of `chunked` has at most `size` elements. -/
theorem chunked_size_le (l : List α) (size : Nat) :
    ∀ c ∈ chunked l size, c.length ≤ size := by
  intro c hc
  simp only [chunked, List.mem_map] at hc
  obtain ⟨i, _, rfl⟩ := hc
  rw [List.length_take]
  exact inf_le_left

/-- `get_env` on a required variable that is present and non-blank returns
its value. -/
theorem get_env_required_some (env : String → Option String) (name v : String)
    (hv : env name = some v) (hne : pyStrip v ≠ "") :
    get_env env name true Option.none = Except.ok (some v) := by
  simp [get_env, hv, hne]

/-- `get_env` on an optional variable never exits: it returns the set value,
or the default when unset. -/
theorem get_env_optional_ok (env : String → Option String) (name : String)
    (d : Option String) :
    get_env env name false d =
      Except.ok (match env name with | some v => some v | Option.none => d) := by
  simp [get_env]

theorem opt_match_id (o : Option String) :
    (match o with | some v => some v | Option.none => Option.none) = o := by
  cases o <;> rfl

/-- When every insert call succeeds, the insert loop issues exactly one
insert per chunk, carrying the chunks in order, and reports success. -/
theorem insertBatches_all_ok (ins : Nat → Except String Unit)
    (schema table : String) (hok : ∀ i, ins i = Except.ok ()) :
    ∀ (i0 : Nat) (batches : List (List NormalizedRow)),
      insertedBatches (insertBatches ins schema table i0 batches).1 = batches ∧
      (insertBatches ins schema table i0 batches).2 = Except.ok () := by
  intro i0 batches
  induction batches generalizing i0 with
  | nil => simp [insertBatches, insertedBatches]
  | cons b rest ih =>
    obtain ⟨ih1, ih2⟩ := ih (i0 + 1)
    simp only [insertBatches, hok i0]
    constructor
    · simp only [insertedBatches, List.filterMap_cons] at ih1 ⊢
      rw [ih1]
    · exact ih2

/-- Under a passing configuration, `runMain` reduces to the fetch stage
followed by the pipeline, with the schema and table resolved from the
environment (or their defaults). -/
theorem runMain_of_requiredEnvOk (w : World) (h : requiredEnvOk w.env) :
    runMain w =
      (let fetched := fetch_acceptance_coefficients w.status_code w.respText
         w.respBody (w.env "WB_WAREHOUSE_IDS")
       match fetched.2 with
       | .error code => (fetched.1, code)
       | .ok raw_rows =>
         let p := pipelineAfterFetch w (schemaOf w.env) (tableOf w.env) raw_rows
         (fetched.1 ++ p.1, p.2)) := by
  obtain ⟨⟨v1, hv1, hn1⟩, ⟨v2, hv2, hn2⟩, ⟨v3, hv3, hn3⟩⟩ := h
  unfold runMain
  rw [get_env_required_some _ _ _ hv1 hn1, get_env_required_some _ _ _ hv2 hn2,
    get_env_required_some _ _ _ hv3 hn3, get_env_optional_ok, get_env_optional_ok,
    get_env_optional_ok, opt_match_id]
  cases hs : w.env "SUPABASE_SCHEMA" <;> cases ht : w.env "SUPABASE_TABLE" <;>
    simp [schemaOf, tableOf, hs, ht]

theorem fetch_ok_snd (t : String) (raws : List RawRow) (wid : Option String) :
    (fetch_acceptance_coefficients 200 t (.jsonList raws) wid).2 = Except.ok raws := by
  simp [fetch_acceptance_coefficients]

theorem fetch_events_logs (sc : Nat) (t : String) (b : RespBody) (wid : Option String) :
    ∀ e ∈ (fetch_acceptance_coefficients sc t b wid).1, ∃ m, e = Event.log m := by
  intro e he
  unfold fetch_acceptance_coefficients at he
  by_cases hsc : sc ≠ 200
  · rw [if_pos hsc] at he
    simp at he
    rcases he with rfl | rfl <;> exact ⟨_, rfl⟩
  · rw [if_neg hsc] at he
    rcases b with s | d | rows <;> simp at he <;>
      rcases he with rfl | rfl <;> exact ⟨_, rfl⟩

theorem insertedBatches_append (a b : List Event) :
    insertedBatches (a ++ b) = insertedBatches a ++ insertedBatches b :=
  List.filterMap_append a b _

theorem insertedBatches_logs (evs : List Event)
    (h : ∀ e ∈ evs, ∃ m, e = Event.log m) : insertedBatches evs = [] := by
  rw [insertedBatches, List.filterMap_eq_nil_iff]
  intro e he
  obtain ⟨m, rfl⟩ := h e he
  rfl

theorem insertedBatches_cons_log (m : String) (evs : List Event) :
    insertedBatches (Event.log m :: evs) = insertedBatches evs := rfl

theorem insertedBatches_cons_delete (s t c b : String) (evs : List Event) :
    insertedBatches (Event.deleteCall s t c b :: evs) = insertedBatches evs := rfl

theorem insertedBatches_cons_insert (s t : String) (batch : List NormalizedRow)
    (evs : List Event) :
    insertedBatches (Event.insertCall s t batch :: evs)
      = batch :: insertedBatches evs := rfl

/-- **C1.** For every list of `N` normalized rows and batch size `B = 1000`,
the sync executor issues exactly `⌈N / B⌉` insert calls, each carrying at
most `B` rows, and the sum of the row counts across all insert calls equals
`N`; equivalently, concatenating the chunks of `chunked(rows, B)` in order
restores the original row list.  The second conjunct ties this to the run
trace: on a run whose configuration, fetch, delete and inserts all succeed,
the batches carried by the issued insert calls are exactly
`chunked(normalize_rows(raws), 1000)`. -/
theorem c1_batching :
    (∀ (rows : List NormalizedRow),
      (chunked rows 1000).length = rows.length ⌈/⌉ 1000 ∧
      (∀ c ∈ chunked rows 1000, c.length ≤ 1000) ∧
      ((chunked rows 1000).map List.length).sum = rows.length ∧
      (chunked rows 1000).flatten = rows) ∧
    (∀ (w : World) (raws : List RawRow), requiredEnvOk w.env →
      w.status_code = 200 → w.respBody = RespBody.jsonList raws →
      w.deleteResult = Except.ok () → (∀ i, w.insertResult i = Except.ok ()) →
      insertedBatches (runMain w).1 = chunked (normalize_rows raws) 1000) := by
  constructor
  · intro rows
    refine ⟨chunked_length rows 1000, chunked_size_le rows 1000, ?_,
      chunked_flatten rows 1000 (by omega)⟩
    rw [← List.length_flatten, chunked_flatten rows 1000 (by omega)]
  · intro w raws henv hsc hbody hdel hins
    rw [runMain_of_requiredEnvOk w henv]
    simp only [hsc, hbody, fetch_ok_snd]
    rw [insertedBatches_append,
      insertedBatches_logs _ (fetch_events_logs 200 w.respText
        (.jsonList raws) (w.env "WB_WAREHOUSE_IDS")), List.nil_append]
    unfold pipelineAfterFetch
    by_cases hraws : raws.isEmpty
    · have : raws = [] := List.isEmpty_iff.mp hraws
      subst this
      simp [insertedBatches_cons_log, insertedBatches, normalize_rows, chunked_nil]
    · rw [if_neg (by simpa using hraws)]
      by_cases hrows : (normalize_rows raws).isEmpty
      · have h0 : normalize_rows raws = [] := List.isEmpty_iff.mp hrows
        simp [hrows, h0, insertedBatches, chunked_nil]
      · rw [if_neg (by simpa using hrows)]
        unfold syncStage
        rw [hdel]
        obtain ⟨hib1, hib2⟩ := insertBatches_all_ok w.insertResult
          (schemaOf w.env) (tableOf w.env) hins 1
          (chunked (normalize_rows raws) 1000)
        simp only [hib2]
        simp only [insertedBatches_cons_log, insertedBatches_cons_delete,
          insertedBatches_append]
        rw [hib1]
        simp [insertedBatches]

theorem cleanTrace_append (a b : List Event) :
    cleanTrace (a ++ b) ↔ cleanTrace a ∧ cleanTrace b := by
  simp only [cleanTrace, List.mem_append, or_imp, forall_and]
  tauto

theorem cleanTrace_logs (evs : List Event) (h : ∀ e ∈ evs, ∃ m, e = Event.log m) :
    cleanTrace evs := by
  intro e he
  obtain ⟨m, rfl⟩ := h e he
  exact ⟨rfl, rfl⟩

/-- **C2.** If the fetch stage returns an empty list, or the normalization
stage produces zero rows, the run issues no delete call and no insert call
and the process exits with code 0 (the "nothing to sync" short-circuit). -/
theorem c2_nothing_to_sync (w : World) (raws : List RawRow)
    (henv : requiredEnvOk w.env) (hsc : w.status_code = 200)
    (hbody : w.respBody = RespBody.jsonList raws)
    (hempty : raws = [] ∨ normalize_rows raws = []) :
    (runMain w).2 = 0 ∧ cleanTrace (runMain w).1 := by
  rw [runMain_of_requiredEnvOk w henv]
  simp only [hsc, hbody, fetch_ok_snd]
  have hclean : cleanTrace (fetch_acceptance_coefficients 200 w.respText
      (.jsonList raws) (w.env "WB_WAREHOUSE_IDS")).1 :=
    cleanTrace_logs _ (fetch_events_logs _ _ _ _)
  have hpipe : ∃ msgs : List String,
      pipelineAfterFetch w (schemaOf w.env) (tableOf w.env) raws
        = (msgs.map Event.log, 0) := by
    rcases hempty with h | h
    · subst h
      exact ⟨["No rows from WB, nothing to sync."], rfl⟩
    · by_cases hr : raws.isEmpty
      · exact ⟨["No rows from WB, nothing to sync."],
          by simp [pipelineAfterFetch, hr]⟩
      · refine ⟨["Normalized rows: " ++ toString (normalize_rows raws).length,
          "No normalized rows, nothing to insert."], ?_⟩
        simp [pipelineAfterFetch, hr, h]
  obtain ⟨msgs, hmsgs⟩ := hpipe
  rw [hmsgs]
  refine ⟨rfl, (cleanTrace_append _ _).mpr ⟨hclean, cleanTrace_logs _ ?_⟩⟩
  intro e he
  simp only [List.mem_map] at he
  obtain ⟨m, _, rfl⟩ := he
  exact ⟨m, rfl⟩

/-- Closed witness for C2: a world whose fetch returns the empty array exits
0 with a delete/insert-free trace. -/
theorem c2_nothing_to_sync_witness :
    (runMain { testWorld with respBody := .jsonList [] }).2 = 0 ∧
    cleanTrace (runMain { testWorld with respBody := .jsonList [] }).1 :=
  c2_nothing_to_sync _ []
    ⟨⟨"token", rfl, by decide⟩, ⟨"http://sb", rfl, by decide⟩,
     ⟨"key", rfl, by decide⟩⟩
    rfl rfl (Or.inl rfl)

theorem fetch_snd_nonlist (sc : Nat) (t d : String) (wid : Option String) :
    (fetch_acceptance_coefficients sc t (.jsonNonList d) wid).2 = Except.error 1 := by
  unfold fetch_acceptance_coefficients
  by_cases hsc : sc ≠ 200
  · rw [if_pos hsc]
  · rw [if_neg hsc]

/-- **C4.** For every fetch response whose parsed JSON body is not a list at
the top level, the run terminates with a non-zero exit code before issuing
any delete or insert call — whatever the rest of the world looks like. -/
theorem c4_nonlist_fails_early (w : World) (d : String)
    (hbody : w.respBody = RespBody.jsonNonList d) :
    (runMain w).2 = 1 ∧ cleanTrace (runMain w).1 := by
  unfold runMain
  cases hg1 : get_env w.env "WB_SUPPLIES_TOKEN" true Option.none with
  | error msg => exact ⟨rfl, cleanTrace_logs _ (by simp)⟩
  | ok v1 =>
  cases hg2 : get_env w.env "SUPABASE_URL" true Option.none with
  | error msg => exact ⟨rfl, cleanTrace_logs _ (by simp)⟩
  | ok v2 =>
  cases hg3 : get_env w.env "SUPABASE_SERVICE_KEY" true Option.none with
  | error msg => exact ⟨rfl, cleanTrace_logs _ (by simp)⟩
  | ok v3 =>
  cases hg4 : get_env w.env "SUPABASE_SCHEMA" false (some "public") with
  | error msg => exact ⟨rfl, cleanTrace_logs _ (by simp)⟩
  | ok v4 =>
  cases hg5 : get_env w.env "SUPABASE_TABLE" false (some "wb_acceptance_coefficients") with
  | error msg => exact ⟨rfl, cleanTrace_logs _ (by simp)⟩
  | ok v5 =>
  cases hg6 : get_env w.env "WB_WAREHOUSE_IDS" false Option.none with
  | error msg => exact ⟨rfl, cleanTrace_logs _ (by simp)⟩
  | ok v6 =>
  dsimp only
  rw [hbody, fetch_snd_nonlist]
  exact ⟨rfl, cleanTrace_logs _ (fetch_events_logs _ _ _ _)⟩

/-- Closed witness for C4: a world whose response parses to a JSON object. -/
theorem c4_nonlist_fails_early_witness :
    (runMain { testWorld with respBody := .jsonNonList "dict" }).2 = 1 ∧
    cleanTrace (runMain { testWorld with respBody := .jsonNonList "dict" }).1 :=
  c4_nonlist_fails_early _ "dict" rfl

/-- **C3.** For every run in which the delete call raises an error, no insert
call is ever issued in that run, and whenever the delete call was actually
issued the process exits with a non-zero code. -/
theorem c3_delete_error_aborts (w : World) (err : String)
    (hdel : w.deleteResult = Except.error err) :
    (∀ ev ∈ (runMain w).1, ev.isInsert = false) ∧
    ((∃ ev ∈ (runMain w).1, ev.isDelete = true) → (runMain w).2 = 1) := by
  unfold runMain
  cases hg1 : get_env w.env "WB_SUPPLIES_TOKEN" true Option.none with
  | error msg => exact ⟨by simp [Event.isInsert], fun _ => rfl⟩
  | ok v1 =>
  cases hg2 : get_env w.env "SUPABASE_URL" true Option.none with
  | error msg => exact ⟨by simp [Event.isInsert], fun _ => rfl⟩
  | ok v2 =>
  cases hg3 : get_env w.env "SUPABASE_SERVICE_KEY" true Option.none with
  | error msg => exact ⟨by simp [Event.isInsert], fun _ => rfl⟩
  | ok v3 =>
  cases hg4 : get_env w.env "SUPABASE_SCHEMA" false (some "public") with
  | error msg => exact ⟨by simp [Event.isInsert], fun _ => rfl⟩
  | ok v4 =>
  cases hg5 : get_env w.env "SUPABASE_TABLE" false (some "wb_acceptance_coefficients") with
  | error msg => exact ⟨by simp [Event.isInsert], fun _ => rfl⟩
  | ok v5 =>
  cases hg6 : get_env w.env "WB_WAREHOUSE_IDS" false Option.none with
  | error msg => exact ⟨by simp [Event.isInsert], fun _ => rfl⟩
  | ok v6 =>
  dsimp only
  have hflogs := fetch_events_logs w.status_code w.respText w.respBody v6
  cases hf : (fetch_acceptance_coefficients w.status_code w.respText w.respBody v6).2 with
  | error code =>
    dsimp only
    refine ⟨?_, ?_⟩
    · intro ev hev
      obtain ⟨m, rfl⟩ := hflogs ev hev
      rfl
    · rintro ⟨ev, hev, hd⟩
      obtain ⟨m, rfl⟩ := hflogs ev hev
      simp [Event.isDelete] at hd
  | ok raws =>
  dsimp only
  unfold pipelineAfterFetch
  by_cases hraws : raws.isEmpty
  · rw [if_pos hraws]
    refine ⟨?_, ?_⟩
    · intro ev hev
      rw [List.mem_append] at hev
      rcases hev with hev | hev
      · obtain ⟨m, rfl⟩ := hflogs ev hev
        rfl
      · simp at hev
        subst hev
        rfl
    · rintro ⟨ev, hev, hd⟩
      rw [List.mem_append] at hev
      rcases hev with hev | hev
      · obtain ⟨m, rfl⟩ := hflogs ev hev
        simp [Event.isDelete] at hd
      · simp at hev
        subst hev
        simp [Event.isDelete] at hd
  · rw [if_neg hraws]
    by_cases hrows : (normalize_rows raws).isEmpty
    · rw [if_pos hrows]
      refine ⟨?_, ?_⟩
      · intro ev hev
        rw [List.mem_append] at hev
        rcases hev with hev | hev
        · obtain ⟨m, rfl⟩ := hflogs ev hev
          rfl
        · simp at hev
          rcases hev with rfl | rfl <;> rfl
      · rintro ⟨ev, hev, hd⟩
        rw [List.mem_append] at hev
        rcases hev with hev | hev
        · obtain ⟨m, rfl⟩ := hflogs ev hev
          simp [Event.isDelete] at hd
        · simp at hev
          rcases hev with rfl | rfl <;> simp [Event.isDelete] at hd
    · rw [if_neg hrows]
      unfold syncStage
      rw [hdel]
      refine ⟨?_, fun _ => rfl⟩
      intro ev hev
      rw [List.mem_append] at hev
      rcases hev with hev | hev
      · obtain ⟨m, rfl⟩ := hflogs ev hev
        rfl
      · simp at hev
        rcases hev with rfl | rfl | rfl | rfl <;> rfl

/-- Closed witness for C3: a world whose delete call raises. -/
theorem c3_delete_error_aborts_witness :
    (∀ ev ∈ (runMain { testWorld with deleteResult := .error "boom" }).1,
      ev.isInsert = false) ∧
    ((∃ ev ∈ (runMain { testWorld with deleteResult := .error "boom" }).1,
      ev.isDelete = true) →
      (runMain { testWorld with deleteResult := .error "boom" }).2 = 1) :=
  c3_delete_error_aborts _ "boom" rfl

theorem normalizeRow_none_of_badDate (r : RawRow) (h : badDate r) :
    normalizeRow r = Option.none := by
  rcases h with h | h | ⟨s, hs, hp⟩
  · simp [normalizeRow, h]
  · simp [normalizeRow, h]
  · rw [normalizeRow, hs]
    by_cases he : s = ""
    · simp [he]
    · simp [he, hp]

/-- **C8.** For every raw record whose date field is missing, empty, or
unparseable, the normalizer drops that record — it contributes no normalized
row — does not raise (the normalizer is a total function), and the run
continues processing the remaining records; it produces at most one
normalized row per raw record. -/
theorem c8_bad_date_dropped :
    (∀ r : RawRow, badDate r → normalizeRow r = Option.none) ∧
    (∀ (pre post : List RawRow) (r : RawRow), badDate r →
      normalize_rows (pre ++ r :: post) = normalize_rows (pre ++ post)) ∧
    (∀ l : List RawRow, (normalize_rows l).length ≤ l.length) := by
  refine ⟨normalizeRow_none_of_badDate, ?_, ?_⟩
  · intro pre post r h
    simp [normalize_rows, List.filterMap_append, List.filterMap_cons,
      normalizeRow_none_of_badDate r h]
  · intro l
    exact List.length_filterMap_le _ _

/-- Closed witness for C8: an unparseable date is dropped, while the
surrounding records survive. -/
theorem c8_bad_date_dropped_witness :
    normalizeRow ({ date := some "not-a-date" } : RawRow) = Option.none ∧
    normalize_rows ([testRaw] ++ ({ date := some "not-a-date" } : RawRow) :: [testRaw])
      = normalize_rows ([testRaw] ++ [testRaw]) ∧
    (normalize_rows [testRaw]).length ≤ 1 :=
  ⟨c8_bad_date_dropped.1 _ (Or.inr (Or.inr ⟨"not-a-date", rfl, by decide⟩)),
   c8_bad_date_dropped.2.1 [testRaw] [testRaw] _
     (Or.inr (Or.inr ⟨"not-a-date", rfl, by decide⟩)),
   c8_bad_date_dropped.2.2 [testRaw]⟩

/-- **C10.** For every raw record that is normalized, the normalized
`warehouse_name` is always a string and never null (enforced by its type in
`NormalizedRow`): it equals the raw `warehouseName` when that value is a
non-empty string, and `""` when `warehouseName` is absent, null, or empty. -/
theorem c10_warehouse_name_default (r : RawRow) (row : NormalizedRow)
    (h : normalizeRow r = some row) :
    ((r.warehouseName = Option.none ∨ r.warehouseName = some "") →
      row.warehouse_name = "") ∧
    (∀ s, r.warehouseName = some s → s ≠ "" → row.warehouse_name = s) := by
  unfold normalizeRow at h
  rcases hd : r.date with _ | ds
  · rw [hd] at h
    simp at h
  · rw [hd] at h
    dsimp only at h
    by_cases he : ds = ""
    · rw [if_pos he] at h
      simp at h
    · rw [if_neg he] at h
      rcases hp : pyFromIsoformatDate (pyReplace1 'Z' "+00:00" ds).data with _ | ymd
      · rw [hp] at h
        simp at h
      · rw [hp] at h
        dsimp only at h
        injection h with h
        subst h
        constructor
        · rintro (hw | hw) <;> simp [hw]
        · intro s hw hne
          simp [hw, hne]

/-- Closed witness for C10: an absent `warehouseName` defaults to `""`, a
non-empty one is kept. -/
theorem c10_warehouse_name_default_witness :
    testNorm.warehouse_name = "" ∧
    ({ testNorm with warehouse_name := "WH" } : NormalizedRow).warehouse_name
      = "WH" :=
  ⟨(c10_warehouse_name_default testRaw testNorm (by decide)).1 (Or.inl rfl),
   (c10_warehouse_name_default { testRaw with warehouseName := some "WH" }
      { testNorm with warehouse_name := "WH" } (by decide)).2 "WH" rfl
      (by decide)⟩

theorem get_env_required_ok_inv (env : String → Option String) (name : String)
    (o : Option String) (h : get_env env name true Option.none = Except.ok o) :
    ∃ v, env name = some v ∧ pyStrip v ≠ "" := by
  unfold get_env at h
  cases he : env name with
  | none =>
    rw [he] at h
    simp at h
  | some v =>
    rw [he] at h
    by_cases hv : pyStrip v = ""
    · simp [hv] at h
    · exact ⟨v, rfl, hv⟩

/-- **C9.** For every required configuration setting whose environment value
is absent or blank, `get_env` terminates the process with exit 1 after a
message naming the missing setting (the message is
`"ERROR: <name> is empty …"`, which contains the name); an optional setting
absent from the environment yields its default instead of failing; and a run
whose environment lacks any of the three required settings exits 1. -/
theorem c9_required_env :
    (∀ (env : String → Option String) (name : String), envBlank env name →
      get_env env name true Option.none =
        Except.error ("ERROR: " ++ name ++ " is empty (set it in GitHub Secrets or env)")) ∧
    (∀ (env : String → Option String) (name : String) (d : Option String),
      env name = Option.none → get_env env name false d = Except.ok d) ∧
    (∀ w : World,
      (envBlank w.env "WB_SUPPLIES_TOKEN" ∨ envBlank w.env "SUPABASE_URL" ∨
       envBlank w.env "SUPABASE_SERVICE_KEY") →
      (runMain w).2 = 1) := by
  refine ⟨?_, ?_, ?_⟩
  · intro env name h
    rcases h with h | ⟨v, hv, hbl⟩
    · simp [get_env, h]
    · simp [get_env, hv, hbl]
  · intro env name d h
    simp [get_env, h]
  · intro w hblank
    unfold runMain
    cases hg1 : get_env w.env "WB_SUPPLIES_TOKEN" true Option.none with
    | error msg => rfl
    | ok v1 =>
    dsimp only
    cases hg2 : get_env w.env "SUPABASE_URL" true Option.none with
    | error msg => rfl
    | ok v2 =>
    dsimp only
    cases hg3 : get_env w.env "SUPABASE_SERVICE_KEY" true Option.none with
    | error msg => rfl
    | ok v3 =>
    exfalso
    rcases hblank with h | h | h
    · obtain ⟨v, hv, hne⟩ := get_env_required_ok_inv _ _ _ hg1
      rcases h with h | ⟨v', hv', hbl⟩
      · rw [h] at hv
        exact Option.noConfusion hv
      · rw [hv'] at hv
        injection hv with hv
        subst hv
        exact hne hbl
    · obtain ⟨v, hv, hne⟩ := get_env_required_ok_inv _ _ _ hg2
      rcases h with h | ⟨v', hv', hbl⟩
      · rw [h] at hv
        exact Option.noConfusion hv
      · rw [hv'] at hv
        injection hv with hv
        subst hv
        exact hne hbl
    · obtain ⟨v, hv, hne⟩ := get_env_required_ok_inv _ _ _ hg3
      rcases h with h | ⟨v', hv', hbl⟩
      · rw [h] at hv
        exact Option.noConfusion hv
      · rw [hv'] at hv
        injection hv with hv
        subst hv
        exact hne hbl

/-- Closed witness for C9: an empty environment fails on the first required
setting, an optional setting yields its default, and the run exits 1. -/
theorem c9_required_env_witness :
    get_env (fun _ => Option.none) "WB_SUPPLIES_TOKEN" true Option.none =
      Except.error ("ERROR: " ++ "WB_SUPPLIES_TOKEN"
        ++ " is empty (set it in GitHub Secrets or env)") ∧
    get_env (fun _ => Option.none) "SUPABASE_SCHEMA" false (some "public") =
      Except.ok (some "public") ∧
    (runMain { testWorld with env := fun _ => Option.none }).2 = 1 :=
  ⟨c9_required_env.1 _ _ (Or.inl rfl),
   c9_required_env.2.1 _ _ _ rfl,
   c9_required_env.2.2 _ (Or.inl (Or.inl rfl))⟩

theorem readDigit_digitChar (k : Nat) (h : k ≤ 9) : readDigit (digitChar k) = some k := by
  interval_cases k <;> decide

theorem digitChar_ne_Z (k : Nat) (h : k ≤ 9) : digitChar k ≠ 'Z' := by
  interval_cases k <;> decide

theorem pad2_no_Z (n : Nat) (h : n ≤ 99) : ∀ c ∈ pad2 n, c ≠ 'Z' := by
  intro c hc
  simp only [pad2, List.mem_cons, List.not_mem_nil, or_false] at hc
  rcases hc with rfl | rfl
  · exact digitChar_ne_Z _ (by omega)
  · exact digitChar_ne_Z _ (by omega)

theorem pad4_no_Z (n : Nat) (h : n ≤ 9999) : ∀ c ∈ pad4 n, c ≠ 'Z' := by
  intro c hc
  simp only [pad4, List.mem_cons, List.not_mem_nil, or_false] at hc
  rcases hc with rfl | rfl | rfl | rfl
  · exact digitChar_ne_Z _ (by omega)
  · exact digitChar_ne_Z _ (by omega)
  · exact digitChar_ne_Z _ (by omega)
  · exact digitChar_ne_Z _ (by omega)

theorem no_Z_append {a b : List Char} (ha : ∀ c ∈ a, c ≠ 'Z')
    (hb : ∀ c ∈ b, c ≠ 'Z') : ∀ c ∈ a ++ b, c ≠ 'Z' := by
  intro c hc
  rcases List.mem_append.mp hc with h | h
  · exact ha c h
  · exact hb c h

theorem no_Z_cons {c0 : Char} {b : List Char} (h0 : c0 ≠ 'Z')
    (hb : ∀ c ∈ b, c ≠ 'Z') : ∀ c ∈ c0 :: b, c ≠ 'Z' := by
  intro c hc
  rcases List.mem_cons.mp hc with rfl | h
  · exact h0
  · exact hb c h

theorem pyReplace1L_no_occ (pat : Char) (rep : List Char) (l : List Char)
    (h : ∀ c ∈ l, c ≠ pat) : pyReplace1L pat rep l = l := by
  induction l with
  | nil => rfl
  | cons c rest ih =>
    simp [pyReplace1L, h c (by simp), ih (fun c2 hc2 => h c2 (by simp [hc2]))]

theorem pyReplace1L_append (pat : Char) (rep : List Char) (a b : List Char) :
    pyReplace1L pat rep (a ++ b)
      = pyReplace1L pat rep a ++ pyReplace1L pat rep b := by
  induction a with
  | nil => rfl
  | cons c rest ih => simp [pyReplace1L, ih]

theorem read2_pad2 (n : Nat) (h : n ≤ 99) (rest : List Char) :
    read2 (pad2 n ++ rest) = some (n, rest) := by
  have h1 : n / 10 ≤ 9 := by omega
  have h2 : n % 10 ≤ 9 := by omega
  simp [pad2, read2, readDigit_digitChar _ h1, readDigit_digitChar _ h2]
  omega

theorem read4_pad4 (n : Nat) (h : n ≤ 9999) (rest : List Char) :
    read4 (pad4 n ++ rest) = some (n, rest) := by
  have h1 : n / 1000 ≤ 9 := by omega
  have h2 : n / 100 % 10 ≤ 9 := by omega
  have h3 : n / 10 % 10 ≤ 9 := by omega
  have h4 : n % 10 ≤ 9 := by omega
  simp [pad4, read4, readDigit_digitChar _ h1, readDigit_digitChar _ h2,
    readDigit_digitChar _ h3, readDigit_digitChar _ h4]
  omega

theorem expect_cons (c : Char) (rest : List Char) :
    expect c (c :: rest) = some rest := by
  simp [expect]

theorem daysInMonth_le (y m : Nat) : daysInMonth y m ≤ 31 := by
  unfold daysInMonth
  split
  · split <;> omega
  · split <;> omega

/-- Replacing the single trailing `'Z'` of a WB timestamp yields the same
string with `"+00:00"` in its place. -/
theorem replace_wbTimestamp (y m d hh mi ss : Nat) (hy : y ≤ 9999) (hm : m ≤ 99)
    (hd : d ≤ 99) (hh9 : hh ≤ 99) (hmi : mi ≤ 99) (hss : ss ≤ 99) :
    (pyReplace1 'Z' "+00:00" (wbTimestamp y m d hh mi ss)).data
      = pad4 y ++ ('-' :: (pad2 m ++ ('-' :: (pad2 d ++ ('T' :: (pad2 hh
        ++ (':' :: (pad2 mi ++ (':' :: (pad2 ss
        ++ ('+' :: '0' :: '0' :: ':' :: '0' :: '0' :: []))))))))))) := by
  have hA : ∀ c ∈ (pad4 y ++ ('-' :: (pad2 m ++ ('-' :: (pad2 d ++ ('T' :: (pad2 hh
      ++ (':' :: (pad2 mi ++ (':' :: pad2 ss)))))))))), c ≠ 'Z' :=
    no_Z_append (pad4_no_Z y hy) (no_Z_cons (by decide)
      (no_Z_append (pad2_no_Z m hm) (no_Z_cons (by decide)
        (no_Z_append (pad2_no_Z d hd) (no_Z_cons (by decide)
          (no_Z_append (pad2_no_Z hh hh9) (no_Z_cons (by decide)
            (no_Z_append (pad2_no_Z mi hmi) (no_Z_cons (by decide)
              (pad2_no_Z ss hss))))))))))
  have hsplit : (wbTimestamp y m d hh mi ss).data
      = (pad4 y ++ ('-' :: (pad2 m ++ ('-' :: (pad2 d ++ ('T' :: (pad2 hh
        ++ (':' :: (pad2 mi ++ (':' :: pad2 ss)))))))))) ++ ['Z'] := by
    simp [wbTimestamp]
  show pyReplace1L 'Z' ("+00:00".data) (wbTimestamp y m d hh mi ss).data = _
  rw [hsplit, pyReplace1L_append, pyReplace1L_no_occ _ _ _ hA]
  simp [pyReplace1L]

/-- The ISO parser recovers the components from a formatted timestamp with
the `"+00:00"` offset. -/
theorem parser_roundtrip (y m d hh mi ss : Nat)
    (hy1 : 1 ≤ y) (hy : y ≤ 9999) (hm1 : 1 ≤ m) (hm : m ≤ 12)
    (hd1 : 1 ≤ d) (hdm : d ≤ daysInMonth y m)
    (hh2 : hh ≤ 23) (hmi : mi ≤ 59) (hss : ss ≤ 59) :
    pyFromIsoformatDate (pad4 y ++ ('-' :: (pad2 m ++ ('-' :: (pad2 d ++ ('T' :: (pad2 hh
      ++ (':' :: (pad2 mi ++ (':' :: (pad2 ss
      ++ ('+' :: '0' :: '0' :: ':' :: '0' :: '0' :: []))))))))))))
      = some (y, m, d) := by
  unfold pyFromIsoformatDate
  rw [read4_pad4 y hy]
  dsimp only [Option.bind]
  rw [expect_cons]
  dsimp only [Option.bind]
  rw [read2_pad2 m (by omega)]
  dsimp only [Option.bind]
  rw [expect_cons]
  dsimp only [Option.bind]
  rw [read2_pad2 d (by have := daysInMonth_le y m; omega)]
  dsimp only [Option.bind]
  rw [if_pos ⟨hy1, hm1, hm, hd1, hdm⟩]
  rw [read2_pad2 hh (by omega)]
  dsimp only [Option.bind]
  rw [expect_cons]
  dsimp only [Option.bind]
  rw [read2_pad2 mi (by omega)]
  dsimp only [Option.bind]
  rw [expect_cons]
  dsimp only [Option.bind]
  rw [read2_pad2 ss (by omega)]
  dsimp only [Option.bind]
  rw [if_pos ⟨hh2, hmi, hss, by decide⟩]

/-- **C7.** For every raw record whose date field is a timestamp string of
the form `YYYY-MM-DDThh:mm:ssZ` (valid calendar date, valid time of day),
the normalized row's date equals the `YYYY-MM-DD` prefix of that
timestamp. -/
theorem c7_date_truncation (r : RawRow) (y m d hh mi ss : Nat)
    (hy1 : 1 ≤ y) (hy : y ≤ 9999) (hm1 : 1 ≤ m) (hm : m ≤ 12) (hd1 : 1 ≤ d)
    (hdm : d ≤ daysInMonth y m) (hh2 : hh ≤ 23) (hmi : mi ≤ 59) (hss : ss ≤ 59)
    (hdate : r.date = some (wbTimestamp y m d hh mi ss)) :
    ∃ row, normalizeRow r = some row ∧
      row.coeff_date = strTake (wbTimestamp y m d hh mi ss) 10 := by
  have hne : wbTimestamp y m d hh mi ss ≠ "" := by
    intro heq
    rw [String.ext_iff] at heq
    simp [wbTimestamp, pad4] at heq
  have hrep := replace_wbTimestamp y m d hh mi ss hy (by omega)
    (by have := daysInMonth_le y m; omega) (by omega) (by omega) (by omega)
  have hparse := parser_roundtrip y m d hh mi ss hy1 hy hm1 hm hd1 hdm hh2 hmi hss
  unfold normalizeRow
  rw [hdate]
  dsimp only
  rw [if_neg hne, hrep, hparse]
  dsimp only
  refine ⟨_, rfl, ?_⟩
  show formatDate y m d = strTake (wbTimestamp y m d hh mi ss) 10
  rfl

/-- Closed witness for C7 at the concrete timestamp `2024-04-11T00:00:00Z`. -/
theorem c7_date_truncation_witness :
    ∃ row, normalizeRow testRaw = some row ∧
      row.coeff_date = strTake (wbTimestamp 2024 4 11 0 0 0) 10 :=
  c7_date_truncation testRaw 2024 4 11 0 0 0 (by decide) (by decide) (by decide)
    (by decide) (by decide) (by decide) (by decide) (by decide) (by decide)
    (by decide)

theorem get_env_congr (f g : String → Option String) (name : String)
    (h : f name = g name) (required : Bool) (d : Option String) :
    get_env f name required d = get_env g name required d := by
  unfold get_env
  rw [h]

theorem syncStage_congr (w w' : World) (hdel : w.deleteResult = w'.deleteResult)
    (hins : w.insertResult = w'.insertResult) (schema table : String)
    (rows : List NormalizedRow) :
    syncStage w schema table rows = syncStage w' schema table rows := by
  unfold syncStage
  rw [hdel, hins]

theorem pipelineAfterFetch_congr (w w' : World)
    (hdel : w.deleteResult = w'.deleteResult)
    (hins : w.insertResult = w'.insertResult) (schema table : String)
    (raws : List RawRow) :
    pipelineAfterFetch w schema table raws
      = pipelineAfterFetch w' schema table raws := by
  unfold pipelineAfterFetch
  simp only [syncStage_congr w w' hdel hins]

/-- Every batch carried by the insert loop's trace is one of the given
batches, also on runs where some insert call fails. -/
theorem insertBatches_sub (ins : Nat → Except String Unit) (schema table : String) :
    ∀ (i : Nat) (batches : List (List NormalizedRow)) (b : List NormalizedRow),
      b ∈ insertedBatches (insertBatches ins schema table i batches).1 →
      b ∈ batches := by
  intro i batches
  induction batches generalizing i with
  | nil => simp [insertBatches, insertedBatches]
  | cons hd tl ih =>
    intro b hb
    unfold insertBatches at hb
    cases hins : ins i with
    | error e =>
      rw [hins] at hb
      simp [insertedBatches] at hb
      simp [hb]
    | ok u =>
      rw [hins] at hb
      dsimp only at hb
      rw [insertedBatches_cons_log, insertedBatches_cons_insert] at hb
      rcases List.mem_cons.mp hb with rfl | hb
      · exact List.mem_cons_self _ _
      · exact List.mem_cons_of_mem _ (ih (i + 1) b hb)

/-- **C5, counterexample.** The claim "when the batch-size environment
setting is set, that value is used for batching inserts" fails on the code:
with `BATCH_SIZE=2` in the environment and three fetched records, the run
issues a single insert call carrying all three rows (not two calls of at
most two rows). -/
theorem c5_batch_size_counterexample :
    c5World.env "BATCH_SIZE" = some "2" ∧
    (insertedBatches (runMain c5World).1).map List.length = [3] := by
  constructor
  · rfl
  · decide

/-- **C5, amended.** Batch size is not an environment input at all: `main`
reads only the six variables `WB_SUPPLIES_TOKEN`, `SUPABASE_URL`,
`SUPABASE_SERVICE_KEY`, `SUPABASE_SCHEMA`, `SUPABASE_TABLE` and
`WB_WAREHOUSE_IDS` — two environments agreeing on those six produce
identical runs — and the insert batch size is the hardcoded constant
`BATCH_SIZE = 1000`: every insert call of every run carries at most 1000
rows. -/
theorem c5_batch_size_hardcoded :
    (∀ (w : World) (f : String → Option String),
      (∀ name ∈ ["WB_SUPPLIES_TOKEN", "SUPABASE_URL", "SUPABASE_SERVICE_KEY",
        "SUPABASE_SCHEMA", "SUPABASE_TABLE", "WB_WAREHOUSE_IDS"],
        f name = w.env name) →
      runMain { w with env := f } = runMain w) ∧
    (∀ w : World, ∀ b ∈ insertedBatches (runMain w).1, b.length ≤ 1000) := by
  constructor
  · intro w f h
    have h1 := h "WB_SUPPLIES_TOKEN" (by simp)
    have h2 := h "SUPABASE_URL" (by simp)
    have h3 := h "SUPABASE_SERVICE_KEY" (by simp)
    have h4 := h "SUPABASE_SCHEMA" (by simp)
    have h5 := h "SUPABASE_TABLE" (by simp)
    have h6 := h "WB_WAREHOUSE_IDS" (by simp)
    unfold runMain
    dsimp only
    rw [get_env_congr _ _ _ h1, get_env_congr _ _ _ h2, get_env_congr _ _ _ h3,
      get_env_congr _ _ _ h4, get_env_congr _ _ _ h5, get_env_congr _ _ _ h6]
    simp only [pipelineAfterFetch_congr { w with env := f } w rfl rfl]
  · intro w b hb
    unfold runMain at hb
    rcases hg1 : get_env w.env "WB_SUPPLIES_TOKEN" true Option.none with msg | v1 <;>
      rw [hg1] at hb
    · simp [insertedBatches] at hb
    rcases hg2 : get_env w.env "SUPABASE_URL" true Option.none with msg | v2 <;>
      rw [hg2] at hb
    · simp [insertedBatches] at hb
    rcases hg3 : get_env w.env "SUPABASE_SERVICE_KEY" true Option.none with msg | v3 <;>
      rw [hg3] at hb
    · simp [insertedBatches] at hb
    rcases hg4 : get_env w.env "SUPABASE_SCHEMA" false (some "public")
        with msg | v4 <;> rw [hg4] at hb
    · simp [insertedBatches] at hb
    rcases hg5 : get_env w.env "SUPABASE_TABLE" false (some "wb_acceptance_coefficients")
        with msg | v5 <;> rw [hg5] at hb
    · simp [insertedBatches] at hb
    rcases hg6 : get_env w.env "WB_WAREHOUSE_IDS" false Option.none
        with msg | v6 <;> rw [hg6] at hb
    · simp [insertedBatches] at hb
    dsimp only at hb
    have hflogs := fetch_events_logs w.status_code w.respText w.respBody v6
    cases hf : (fetch_acceptance_coefficients w.status_code w.respText w.respBody v6).2 with
    | error code =>
      rw [hf] at hb
      dsimp only at hb
      rw [insertedBatches_logs _ hflogs] at hb
      simp at hb
    | ok raws =>
      rw [hf] at hb
      dsimp only at hb
      rw [insertedBatches_append, insertedBatches_logs _ hflogs,
        List.nil_append] at hb
      unfold pipelineAfterFetch at hb
      by_cases hraws : raws.isEmpty
      · rw [if_pos hraws] at hb
        simp [insertedBatches] at hb
      · rw [if_neg hraws] at hb
        by_cases hrows : (normalize_rows raws).isEmpty
        · rw [if_pos hrows] at hb
          simp [insertedBatches] at hb
        · rw [if_neg hrows] at hb
          dsimp only at hb
          rw [insertedBatches_cons_log] at hb
          unfold syncStage at hb
          cases hdel : w.deleteResult with
          | error e =>
            rw [hdel] at hb
            simp [insertedBatches] at hb
          | ok u =>
            rw [hdel] at hb
            dsimp only at hb
            cases hins : (insertBatches w.insertResult (v4.getD "")
                (v5.getD "") 1 (chunked (normalize_rows raws) 1000)).2 with
            | error code =>
              rw [hins] at hb
              dsimp only at hb
              rw [insertedBatches_cons_log, insertedBatches_cons_delete,
                insertedBatches_cons_log] at hb
              exact chunked_size_le _ 1000 b
                (insertBatches_sub _ _ _ 1 _ b hb)
            | ok u2 =>
              rw [hins] at hb
              dsimp only at hb
              rw [insertedBatches_append, insertedBatches_cons_log,
                insertedBatches_cons_delete, insertedBatches_cons_log] at hb
              rw [List.mem_append] at hb
              rcases hb with hb | hb
              · exact chunked_size_le _ 1000 b
                  (insertBatches_sub _ _ _ 1 _ b hb)
              · simp [insertedBatches] at hb

/-- Closed witness for C5's amended statement: a batch-size environment
variable set to 500 does not change the run, and the single concrete batch
obeys the 1000-row bound. -/
theorem c5_batch_size_hardcoded_witness :
    runMain { testWorld with
      env := fun name => if name = "BATCH_SIZE" then some "500" else testEnv name }
      = runMain testWorld ∧
    [testNorm].length ≤ 1000 :=
  ⟨c5_batch_size_hardcoded.1 testWorld _ (by decide),
   c5_batch_size_hardcoded.2 testWorld [testNorm] (by decide)⟩

/-- Closed witness for C1 at a concrete one-row world. -/
theorem c1_batching_witness :
    (∀ c ∈ chunked [testNorm] 1000, c.length ≤ 1000) ∧
    insertedBatches (runMain testWorld).1 = chunked (normalize_rows [testRaw]) 1000 :=
  ⟨(c1_batching.1 [testNorm]).2.1,
   c1_batching.2 testWorld [testRaw]
     ⟨⟨"token", rfl, by decide⟩, ⟨"http://sb", rfl, by decide⟩,
      ⟨"key", rfl, by decide⟩⟩
     rfl rfl rfl (fun _ => rfl)⟩

end WBSync
